import Mathlib

/-!
Verification of grass-addons scripts against their natural-language
specification.  Each namespace shallowly embeds the relevant parts of one
Python script; theorems settle the spec claims.
-/

namespace RMess

/--
Embedding of the `r.mapcalc` expression built in `compute_ies`
(src/src/raster/r.mess/r.mess.py, lines 211-218):

  ipi = if(tmpf3 == 0, (float(tmpf2) - envmin) / (envmax - envmin) * 100.0,
        if(tmpf3 <= 50, 2 * float(tmpf3),
        if(tmpf3 < 100, 2*(100 - float(tmpf3)),
        (envmax - float(tmpf2)) / (envmax - envmin) * 100.0)))

`p` is the recoded percentile raster cell (`tmpf3`), `v` the discretized
projection value (`tmpf2`), `envmin`/`envmax` the observed reference extremes.
-/
def iesScore (p v envmin envmax : ℚ) : ℚ :=
  if p = 0 then (v - envmin) / (envmax - envmin) * 100
  else if p ≤ 50 then 2 * p
  else if p < 100 then 2 * (100 - p)
  else (envmax - v) / (envmax - envmin) * 100

/-!
Embedding of the recode-rule-table construction shared by
`recode_reference_rasters` (r.mess.py lines 474-498) and
`recode_reference_vector` (r.mess.py lines 357-385): from the sorted observed
(discretized, integer) values with their counts and the projection layer's
range `[Dmin, Dmax]`, the code builds

  a1 = hstack([e1, values]),  a2 = hstack([values - 1, e2]),
  b1 = hstack([0, cumsum(counts) / sum(counts) * 100])

and writes the rows `a1[k]:a2[k]:b1[k]` to the rules file.
-/

/-- One `lo:hi:out` row of the recode rules file. -/
structure RecodeRule where
  lo : ℤ
  hi : ℤ
  out : ℚ
  deriving DecidableEq, Repr

/-- Row-wise zip of the three stacked arrays into rule rows. -/
def zip3 : List ℤ → List ℤ → List ℚ → List RecodeRule
  | a :: as, b :: bs, c :: cs => ⟨a, b, c⟩ :: zip3 as bs cs
  | _, _, _ => []

/-- Embedding of `np.cumsum` on the count column. -/
def cumsum (counts : List ℚ) : List ℚ :=
  (counts.scanl (· + ·) 0).tail

/-- Embedding of `c = a / b * 100` (cumulative percentiles). -/
def cumulativePct (counts : List ℚ) : List ℚ :=
  (cumsum counts).map (fun a => a / counts.sum * 100)

/-- Lower extension: `e1 = Dmin - 1 if Dmin < envmin else envmin - 1`. -/
def mkE1 (Dmin envmin : ℤ) : ℤ :=
  if Dmin < envmin then Dmin - 1 else envmin - 1

/-- Upper extension: `e2 = Dmax + 1 if Dmax > envmax else envmax + 1`. -/
def mkE2 (Dmax envmax : ℤ) : ℤ :=
  if envmax < Dmax then Dmax + 1 else envmax + 1

/-- The recode rules table written to the scratch file (`vals` is the sorted
observed-value column of the frequency table, `counts` the count column,
`Dmin`/`Dmax` the projection layer's observed range). -/
def buildRules (vals : List ℤ) (counts : List ℚ) (Dmin Dmax : ℤ) :
    List RecodeRule :=
  let envmin := (vals.min?).getD 0
  let envmax := (vals.max?).getD 0
  zip3 (mkE1 Dmin envmin :: vals)
    (vals.map (fun v => v - 1) ++ [mkE2 Dmax envmax])
    (0 :: cumulativePct counts)

end RMess

namespace RRecodeAttr

/-!
Embedding of `main` of src/src/raster/r.recode.attr/r.recode.attr.py,
lines 96-139.  The rules table read by `np.genfromtxt` is modelled as a
header row (column names) plus data rows, each holding the source category
value (first column) and the list of target-column values.  For each target
column `x` (`numVar = xrange(dimData[1] - 1)`) the script stacks
`(data[:,0], data[:,0], data[:,x+1])` into a `value:value:new_value` rules
file and invokes `r.recode` once, naming the output `outNames[x]` when the
number of target columns equals the number of given names and
`outNames[0] + "_" + nmsData[x+1]` otherwise.
-/

/-- One `r.recode` invocation: the output layer name and the
`value:value:new_value` rule triples written to its scratch rules file. -/
structure RecodeJob where
  name : String
  rules : List (ℚ × ℚ × ℚ)
  deriving DecidableEq

/-- Semantics of `r.recode` on one cell: the first rule whose
`[lo, hi]` interval contains the cell value yields the new value;
otherwise the output cell is null. -/
def recodeCell (rules : List (ℚ × ℚ × ℚ)) (c : ℚ) : Option ℚ :=
  (rules.find? (fun t => decide (t.1 ≤ c) && decide (c ≤ t.2.1))).map
    (fun t => t.2.2)

/-- Semantics of `r.recode` on a whole raster (cell list). -/
def applyRecode (rules : List (ℚ × ℚ × ℚ)) (input : List ℚ) :
    List (Option ℚ) :=
  input.map (recodeCell rules)

/-- The per-column recode invocations built by the `for x in numVar` loop
(`T` is `dimData[1] - 1`, the number of target columns). -/
def recodeAttrJobs (T : ℕ) (header : List String)
    (rows : List (ℚ × List ℚ)) (outNames : List String) : List RecodeJob :=
  (List.range T).map (fun x =>
    { name :=
        if T = outNames.length then outNames.getD x ""
        else outNames.headD "" ++ "_" ++ header.getD (x + 1) "",
      rules := rows.map (fun r => (r.1, r.1, r.2.getD x 0)) })

end RRecodeAttr

namespace RMaxentPredict

/-!
Embedding of the relevant parts of
src/src/raster/r.maxent.predict/r.maxent.predict.py: the computational-region
resolution check (lines 322-341), the Maxent subprocess outcome handling
(lines 435-477) and the exit-time `cleanup` callback (lines 159-164).
-/

/-- Outcome of the resolution check of `main`: either the script aborts
fatally (before the predictor subprocess is ever built or invoked), or it
continues with the region resolutions it will run under. -/
inductive ResolutionOutcome where
  | fatal : ResolutionOutcome
  | continueWith : ℚ → ℚ → ResolutionOutcome
  deriving DecidableEq

/-- Embedding of lines 322-341: when `nsres != ewres`, flag `-e` resamples
both resolutions to `min(nsres, ewres)` (`g.region -a res=new_resolution`)
and continues; without the flag the script calls `gs.fatal` and never
reaches the subprocess section below it. -/
def checkResolution (nsres ewres : ℚ) (flagE : Bool) : ResolutionOutcome :=
  if nsres ≠ ewres then
    if flagE then
      .continueWith (min nsres ewres) (min nsres ewres)
    else .fatal
  else .continueWith nsres ewres

/-- Outcome of the Maxent subprocess section of `main`. -/
inductive MaxentRunOutcome where
  | importGrid : String → MaxentRunOutcome
  | fatal : String → MaxentRunOutcome
  | unboundLocal : String → MaxentRunOutcome
  deriving DecidableEq

/-- The stderr signature scanned for at line 448. -/
def signature : String := "java.util.NoSuchElementException"

/-- The clearer diagnostic assigned at lines 449-451. -/
def missingVariablesMsg : String :=
  "Check variable names and path + names of input files"

/-- The fatal message of lines 462-468 for a missing output grid. -/
def noOutputMsg : String :=
  "Maxent did not create an output raster for import in GRASS.\nCheck the error message(s) above."

/-- Character-list version of `needle` being an initial segment of the
haystack. -/
def leadsWith : List Char → List Char → Bool
  | [], _ => true
  | _ :: _, [] => false
  | a :: as, b :: bs => a == b && leadsWith as bs

/-- Embedding of the Python substring test `needle in line`: some contiguous
occurrence of the needle inside the haystack. -/
def hasSegment (needle : List Char) : List Char → Bool
  | [] => leadsWith needle []
  | b :: bs => leadsWith needle (b :: bs) || hasSegment needle bs

/-- The Python local `missing_variables` after the stderr loop: bound to the
diagnostic iff some stderr line contains the signature, unbound (`none`)
otherwise. -/
def missing_variables (stderrLines : List String) : Option String :=
  if stderrLines.any (fun l => hasSegment signature.data l.data) then
    some missingVariablesMsg
  else none

/-- Embedding of lines 435-477: after the subprocess ends, a non-zero return
code evaluates `if missing_variables:`; when the local is bound this is the
fatal diagnostic, when it is unbound Python raises `UnboundLocalError`
(so the `gs.fatal("Maxent terminated with an error")` branch is never
reached).  With return code zero, a missing output grid is fatal, and
otherwise the grid is imported as the named output raster. -/
def maxentRunOutcome (stderrLines : List String) (returncode : ℤ)
    (gridExists : Bool) (output : String) : MaxentRunOutcome :=
  if returncode ≠ 0 then
    match missing_variables stderrLines with
    | some msg => .fatal msg
    | none => .unboundLocal "missing_variables"
  else if !gridExists then .fatal noOutputMsg
  else .importGrid output

/-- The module-level binding of the name `temp_directory` looked up by
`cleanup`: the script assigns `temp_directory` only as a local variable
inside `main` (lines 349 and 352), never at module scope, so the global
lookup fails (`none`). -/
def temp_directory_global : Option String := none

/-- Embedding of `cleanup` (lines 159-164) acting on a filesystem modelled
as a list of file paths: `shutil.rmtree(temp_directory)` removes every path
under the directory, but when the name lookup fails the raised error is
swallowed by the bare `except: pass` and the filesystem is untouched. -/
def cleanup (tempDirectoryGlobal : Option String) (fs : List String) :
    List String :=
  match tempDirectoryGlobal with
  | some d => fs.filter (fun f => !(d.isPrefixOf f))
  | none => fs

end RMaxentPredict

namespace VInGbif

/-!
Embedding of `process_csv` of src/src/vector/v.in.gbif/v.in.gbif.py,
lines 64-135.  The inner `process_file(input_encoding, handle_errors)` call
opens and converts the file; its behaviour on this particular file is
modelled as a function `attempt` from the encoding (`none` = system default)
and the error mode (`errors="strict"` or `errors="replace"`) to either
success or a raised Python exception.
-/

/-- The `errors=` mode passed to `open`. -/
inductive ErrorMode where
  | strictMode : ErrorMode
  | replaceMode : ErrorMode
  deriving DecidableEq

/-- The exceptions distinguished by the `try/except` clauses. -/
inductive PyErr where
  | unicodeDecodeError : String → PyErr
  | fileNotFoundError : String → PyErr
  | otherError : String → PyErr
  deriving DecidableEq

/-- Outcome of `process_csv`, one constructor per exit path
(`gs.fatal` sites at lines 123, 125-131, 133 and 135, or success). -/
inductive CsvOutcome where
  | ok : CsvOutcome
  | fatalDecode : String → CsvOutcome
  | fatalUnexpectedFallback : String → CsvOutcome
  | fatalFileNotFound : String → CsvOutcome
  | fatalUnexpected : String → CsvOutcome
  deriving DecidableEq

/-- Result of `process_csv`: the sequence of `process_file` attempts made
(encoding, error mode) and the final outcome. -/
structure CsvResult where
  attempts : List (Option String × ErrorMode)
  outcome : CsvOutcome
  deriving DecidableEq

/-- Embedding of `process_csv`: try the primary encoding strictly; on a
`UnicodeDecodeError` retry exactly once with the fallback encoding and
`errors="replace"`; a second `UnicodeDecodeError` is fatal; other exceptions
map to their own fatal messages. -/
def process_csv (attempt : Option String → ErrorMode → Except PyErr Unit)
    (primary_encoding : Option String) (fallback_encoding : String) :
    CsvResult :=
  match attempt primary_encoding .strictMode with
  | .ok _ => ⟨[(primary_encoding, .strictMode)], .ok⟩
  | .error (.unicodeDecodeError _) =>
    match attempt (some fallback_encoding) .replaceMode with
    | .ok _ =>
      ⟨[(primary_encoding, .strictMode),
        (some fallback_encoding, .replaceMode)], .ok⟩
    | .error (.unicodeDecodeError e2) =>
      ⟨[(primary_encoding, .strictMode),
        (some fallback_encoding, .replaceMode)], .fatalDecode e2⟩
    | .error (.fileNotFoundError m) =>
      ⟨[(primary_encoding, .strictMode),
        (some fallback_encoding, .replaceMode)], .fatalUnexpectedFallback m⟩
    | .error (.otherError m) =>
      ⟨[(primary_encoding, .strictMode),
        (some fallback_encoding, .replaceMode)], .fatalUnexpectedFallback m⟩
  | .error (.fileNotFoundError f) =>
    ⟨[(primary_encoding, .strictMode)], .fatalFileNotFound f⟩
  | .error (.otherError m) =>
    ⟨[(primary_encoding, .strictMode)], .fatalUnexpected m⟩

end VInGbif

namespace VBoxplot

/-!
Embedding of `main` of src/src/vector/v.boxplot/v.boxplot.py: the `where`
construction (lines 309-313) with the resulting selection (lines 327-342),
and the grouped-boxplot ordering (lines 357-393): per-group data and medians
(`sf`), the optional stable sort of `sf` by median (`sf.sort(key=
operator.itemgetter(1), reverse=reverse)`), and the box positions
(`ii = {e: i for i, e in enumerate(sf)}`,
`sfo = [(ii[e]) for i, e in enumerate(uid) if e in ii]`).
-/

/-- A database row as seen by the plotted-column selection: the value of
the plotted attribute column (`none` = SQL NULL). -/
structure DbRow where
  value : Option ℚ
  deriving DecidableEq

/-- Embedding of lines 309-313: the `where` string passed to `v.db.select`
always ends with `<column> IS NOT NULL`, conjoined with `AND` to the user
clause when one is given. -/
def buildWhere (userWhere column : String) : String :=
  if userWhere ≠ "" then
    userWhere ++ " AND " ++ column ++ " IS NOT NULL"
  else column ++ " IS NOT NULL"

/-- Semantics of the `v.db.select` call of lines 327-342 under the
constructed `where` clause: the user clause (absent or an abstract row
predicate) conjoined with the non-null test on the value column. -/
def selectRows (userPred : Option (DbRow → Bool)) (rows : List DbRow) :
    List DbRow :=
  match userPred with
  | some p => rows.filter (fun r => p r && r.value.isSome)
  | none => rows.filter (fun r => r.value.isSome)

/-- Ascending insertion into a sorted value list (used by `np.median`). -/
def insertVal (a : ℚ) : List ℚ → List ℚ
  | [] => [a]
  | b :: l => if a ≤ b then a :: b :: l else b :: insertVal a l

/-- Ascending sort of a value list (used by `np.median`). -/
def sortValues : List ℚ → List ℚ
  | [] => []
  | a :: l => insertVal a (sortValues l)

/-- Embedding of `np.median`: middle element of the ascending sort for odd
length, mean of the two middle elements for even length. -/
def npMedian (l : List ℚ) : ℚ :=
  let s := sortValues l
  let n := s.length
  if n % 2 = 1 then s.getD (n / 2) 0
  else (s.getD (n / 2 - 1) 0 + s.getD (n / 2) 0) / 2

/-- The value sub-list of one group (`[vals[i] for i in a]` where `a` holds
the indices with `groups[j] == m`). -/
def groupVals (rows : List (String × ℚ)) (g : String) : List ℚ :=
  (rows.filter (fun r => r.1 == g)).map (fun r => r.2)

/-- The median of one group's values (`np.median(...)` at line 369). -/
def medOf (rows : List (String × ℚ)) (g : String) : ℚ :=
  npMedian (groupVals rows g)

/-- The `sf` list of `(group, median)` pairs built by the loop over `uid`
(lines 366-369). -/
def sfTable (rows : List (String × ℚ)) (uid : List String) :
    List (String × ℚ) :=
  uid.map (fun g => (g, medOf rows g))

/-- Stable insertion step of the key sort: the new element goes before the
first element it compares favourably against, so equal keys keep their
original relative order (CPython's `list.sort` is stable, also with
`reverse=True`). -/
def insRow (cmp : ℚ → ℚ → Bool) (a : String × ℚ) :
    List (String × ℚ) → List (String × ℚ)
  | [] => [a]
  | b :: l => if cmp a.2 b.2 then a :: b :: l else b :: insRow cmp a l

/-- Stable insertion sort by key comparison. -/
def sortRowsBy (cmp : ℚ → ℚ → Bool) :
    List (String × ℚ) → List (String × ℚ)
  | [] => []
  | a :: l => insRow cmp a (sortRowsBy cmp l)

/-- Key comparison of `sf.sort(key=operator.itemgetter(1),
reverse=reverse)`: ascending medians, or descending when `reverse`. -/
def keyCmp (reverse : Bool) (x y : ℚ) : Bool :=
  if reverse then decide (y ≤ x) else decide (x ≤ y)

/-- Embedding of the `sf.sort(...)` call at line 373. -/
def sortTable (reverse : Bool) (sf : List (String × ℚ)) :
    List (String × ℚ) :=
  sortRowsBy (keyCmp reverse) sf

/-- Embedding of lines 374-376: `ii` maps each group name to its index in
the sorted `sf`, and `sfo` lists, for the `i`-th box (group `uid[i]`,
whose data and label are passed at index `i`), the position it is drawn
at. -/
def boxPositions (reverse : Bool) (rows : List (String × ℚ))
    (uid : List String) : List ℕ :=
  let names := (sortTable reverse (sfTable rows uid)).map (fun r => r.1)
  (uid.filter (fun g => names.contains g)).map (fun g => names.indexOf g)

end VBoxplot

namespace TmpTracker

/-!
Embedding of the temporary-name bookkeeping of r.mess
(`create_temporary_name`, r.mess.py lines 190-199, appending to
`CLEAN_RAST` before returning the name) and r.hydro.flatten (`get_name`
with the keep-intermediates flag unset, r.hydro.flatten.py lines 99-102,
appending to `RAST_REMOVE`), together with the order in which the two
scripts' `main` pipelines register names and issue the external engine
calls that create the named artifacts.  A run is modelled as the trace of
these events in program order.
-/

/-- A name in the engine's shared namespace: a user-supplied or fixed name,
or a generated temporary name (the uuid / node-pid suffix is modelled by
the prefix together with a per-run occurrence index). -/
inductive Name where
  | user : String → Name
  | tmp : String → ℕ → Name
  deriving DecidableEq

/-- One event of a script run: appending a name to the process-wide cleanup
list, or an external engine call together with the named artifacts it
creates. -/
inductive Event where
  | register : Name → Event
  | engine : String → List Name → Event
  deriving DecidableEq

/-- Walks a trace carrying the cleanup list built so far; every generated
(`tmp`) name among an engine call's created artifacts must already be on
the list. -/
def checkFrom (registered : List Name) : List Event → Bool
  | [] => true
  | .register n :: tr => checkFrom (n :: registered) tr
  | .engine _ creates :: tr =>
    creates.all (fun n =>
      match n with
      | .user _ => true
      | .tmp _ _ => registered.contains n) && checkFrom registered tr

/-- The claim's invariant for a whole run. -/
def registeredBeforeCreation (tr : List Event) : Bool :=
  checkFrom [] tr

/-- The cleanup list after processing a trace. -/
def regAfter (registered : List Name) : List Event → List Name
  | [] => registered
  | .register n :: tr => regAfter (n :: registered) tr
  | .engine _ _ :: tr => regAfter registered tr

/-- Trace of `main` of r.hydro.flatten with the keep-intermediates flag
unset, as a function of whether breaklines, a minimum size and a filled
elevation output were requested (r.hydro.flatten.py lines 104-272). -/
def hydroTrace (breaklines minSize filled : Bool) : List Event :=
  [.engine "g.region" [], .register (.tmp "rfillstats" 0)]
  ++ (if breaklines then
        [.register (.tmp "breaklines" 0),
         .engine "v.to.rast" [.tmp "breaklines" 0]]
      else [])
  ++ [.engine "r.fill.stats" [.tmp "rfillstats" 0],
      .register (.tmp "holes" 0), .engine "r.mapcalc" [.tmp "holes" 0],
      .register (.tmp "buffer" 0), .engine "r.buffer" [.tmp "buffer" 0]]
  ++ (if breaklines then
        [.register (.tmp "buffer_with_breaklines" 0),
         .engine "r.patch" [.tmp "buffer_with_breaklines" 0]]
      else [])
  ++ [.register (.tmp "reclass_for_clump" 0),
      .engine "r.reclass" [.tmp "reclass_for_clump" 0],
      .register (.tmp "clump" 0), .engine "r.clump" [.tmp "clump" 0],
      .register (.tmp "strip" 0), .engine "r.mapcalc" [.tmp "strip" 0],
      .register (.tmp "water_elevation" 0),
      .engine "r.stats.quantile" [.tmp "water_elevation" 0],
      .register (.tmp "water_stddev" 0),
      .engine "r.stats.zonal" [.tmp "water_stddev" 0],
      .register (.tmp "water_elevation_zonal" 0),
      .engine "r.stats.zonal" [.tmp "water_elevation_zonal" 0],
      .register (.tmp "water_elevation_stddev_zonal" 0),
      .engine "r.stats.zonal" [.tmp "water_elevation_stddev_zonal" 0],
      .register (.tmp "water_elevation_zonal_res" 0)]
  ++ (if breaklines then
        [.register (.tmp "water_elevation_zonal_res_breaklines" 0),
         .engine "r.mapcalc" [.tmp "water_elevation_zonal_res_breaklines" 0],
         .engine "r.neighbors" [.tmp "water_elevation_zonal_res" 0]]
      else
        [.engine "r.mapcalc" [.tmp "water_elevation_zonal_res" 0]])
  ++ [.register (.tmp "water_elevation_stddev_zonal_res" 0),
      .engine "r.mapcalc" [.tmp "water_elevation_stddev_zonal_res" 0]]
  ++ (if minSize then
        [.register (.tmp "reclass" 0), .engine "r.reclass" [.tmp "reclass" 0],
         .register (.tmp "clump_reclass" 0),
         .engine "r.clump" [.tmp "clump_reclass" 0],
         .register (.tmp "size" 0), .engine "r.stats.zonal" [.tmp "size" 0],
         .engine "r.mapcalc" [.user "water_elevation"],
         .engine "r.mapcalc" [.user "water_elevation_stddev"]]
      else
        [.engine "r.mapcalc" [.user "water_elevation"],
         .engine "r.mapcalc" [.user "water_elevation_stddev"]])
  ++ [.engine "r.colors" [], .engine "r.colors" []]
  ++ (if filled then
        [.engine "r.patch" [.user "filled_elevation"],
         .engine "r.colors" []]
      else [])

/-- Trace of `compute_ies` for variable `i` (r.mess.py lines 202-227). -/
def computeIesTrace (i : ℕ) : List Event :=
  [.register (.tmp "tmp6" i), .engine "r.recode" [.tmp "tmp6" i],
   .engine "r.mapcalc" [.user "ipi"], .engine "r.colors" []]

/-- Trace of one iteration of the variable loop of
`recode_reference_vector` (r.mess.py lines 300-403). -/
def vectorBody (m : ℕ) : List Event :=
  [.engine "v.db.addcolumn" [], .engine "db.execute" [],
   .engine "v.what.rast" [], .engine "g.region" [],
   .register (.tmp "tmp8" m), .engine "r.mapcalc" [.tmp "tmp8" m]]
  ++ computeIesTrace m ++ [.engine "r.support" []]

/-- The variable loop of `recode_reference_vector`, first `k` iterations. -/
def vectorLoop : ℕ → List Event
  | 0 => []
  | Nat.succ m => vectorLoop m ++ vectorBody m

/-- Trace of `recode_reference_vector` over `n` variables. -/
def recodeReferenceVectorTrace (n : ℕ) : List Event :=
  [.register (.tmp "tmp7" 0), .engine "v.extract" [.tmp "tmp7" 0],
   .engine "v.db.addtable" []] ++ vectorLoop n

/-- Trace of one iteration of the variable loop of
`recode_reference_rasters` (r.mess.py lines 425-517): with a reference
raster the MASK is re-created by renaming the kept `tmpmsk1` layer back and
forth. -/
def rasterBody (refRast : Bool) (i : ℕ) : List Event :=
  [.engine "g.region" []]
  ++ (if refRast then [.engine "g.rename" [.user "MASK"]] else [])
  ++ [.register (.tmp "tmp4" i), .engine "r.mapcalc" [.tmp "tmp4" i],
      .engine "r.stats" []]
  ++ (if refRast then [.engine "g.rename" [.tmp "tmpmsk1" 0]] else [])
  ++ [.engine "g.region" [],
      .register (.tmp "tmp5" i), .engine "r.mapcalc" [.tmp "tmp5" i],
      .engine "r.univar" []]
  ++ computeIesTrace i ++ [.engine "r.support" []]

/-- The variable loop of `recode_reference_rasters`, first `k`
iterations. -/
def rasterLoop (refRast : Bool) : ℕ → List Event
  | 0 => []
  | Nat.succ i => rasterLoop refRast i ++ rasterBody refRast i

/-- Trace of `recode_reference_rasters` over `n` variables (r.mess.py lines
421-424 then the loop): with a reference raster, `r.mask` creates the MASK,
the temporary name is registered, and the rename creates the artifact under
that name. -/
def recodeReferenceRastersTrace (refRast : Bool) (n : ℕ) : List Event :=
  (if refRast then
    [.engine "r.mask" [.user "MASK"], .register (.tmp "tmpmsk1" 0),
     .engine "g.rename" [.tmp "tmpmsk1" 0]]
   else []) ++ rasterLoop refRast n

/-- Trace of the region set-up of r.mess `main` (r.mess.py lines 583-606):
the region names are registered first; `g.region save=` creates the saved
region only when no user-supplied region replaces the temporary name. -/
def messMainPrefixTrace (refRast refRegion projRegion : Bool) :
    List Event :=
  [.register (.tmp "tmpreg1" 0)]
  ++ (if refRegion then [.engine "g.region" []]
      else if refRast then
        [.engine "g.region" [], .engine "g.region" [.tmp "tmpreg1" 0]]
      else [.engine "g.region" [.tmp "tmpreg1" 0]])
  ++ [.register (.tmp "tmpreg2" 0)]
  ++ (if projRegion then [.engine "g.region" []]
      else [.engine "g.region" [], .engine "g.region" [.tmp "tmpreg2" 0]])
  ++ [.engine "g.region" []]

/-- Trace of the MESS statistics and optional output sections of r.mess
`main` (r.mess.py lines 633-803). -/
def messSuffixTrace (flagN flagM flagK flagC flagI : Bool) : List Event :=
  [.engine "g.region" [], .engine "r.series" [.user "output_MES"],
   .engine "r.colors" [], .engine "r.support" []]
  ++ (if flagN then
        [.engine "r.mapcalc" [.user "output_novel"],
         .engine "r.category" [], .engine "r.support" []]
      else [])
  ++ (if flagM then
        [.register (.tmp "tmp9" 0), .engine "r.series" [.tmp "tmp9" 0],
         .engine "r.mapcalc" [.user "output_MoD"],
         .engine "r.category" [], .engine "r.support" []]
      else [])
  ++ (if flagK then
        [.engine "r.series" [.user "output_SumNeg"],
         .engine "r.colors" [], .engine "r.support" []]
      else [])
  ++ (if flagC then
        [.register (.tmp "tmp10" 0), .engine "r.info" [],
         .engine "r.series" [.tmp "tmp10" 0],
         .engine "r.mapcalc" [.user "output_CountNeg"],
         .engine "r.support" []]
      else [])
  ++ (if flagI then [.engine "g.remove" []] else [])

/-- Trace of a whole r.mess run over `n` environmental variables. -/
def messTrace (refVect refRast refRegion projRegion flagN flagM flagK
    flagC flagI : Bool) (n : ℕ) : List Event :=
  messMainPrefixTrace refRast refRegion projRegion
  ++ (if refVect then recodeReferenceVectorTrace n
      else recodeReferenceRastersTrace refRast n)
  ++ messSuffixTrace flagN flagM flagK flagC flagI

end TmpTracker

/-! Theorems. -/

namespace RMess

theorem zip3_map_lo : ∀ (as bs : List ℤ) (cs : List ℚ),
    bs.length = as.length → cs.length = as.length →
    (zip3 as bs cs).map RecodeRule.lo = as
  | [], _, _, _, _ => by simp [zip3]
  | a :: as, [], cs, hb, hc => by simp at hb
  | a :: as, b :: bs, [], hb, hc => by simp at hc
  | a :: as, b :: bs, c :: cs, hb, hc => by
    simp only [zip3, List.map_cons, List.cons.injEq, true_and]
    exact zip3_map_lo as bs cs (by simpa using hb) (by simpa using hc)

theorem zip3_map_hi : ∀ (as bs : List ℤ) (cs : List ℚ),
    bs.length = as.length → cs.length = as.length →
    (zip3 as bs cs).map RecodeRule.hi = bs
  | [], [], _, _, _ => by simp [zip3]
  | [], b :: bs, _, hb, _ => by simp at hb
  | a :: as, [], cs, hb, hc => by simp at hb
  | a :: as, b :: bs, [], hb, hc => by simp at hc
  | a :: as, b :: bs, c :: cs, hb, hc => by
    simp only [zip3, List.map_cons, List.cons.injEq, true_and]
    exact zip3_map_hi as bs cs (by simpa using hb) (by simpa using hc)

theorem zip3_map_out : ∀ (as bs : List ℤ) (cs : List ℚ),
    bs.length = as.length → cs.length = as.length →
    (zip3 as bs cs).map RecodeRule.out = cs
  | [], _, [], _, _ => by simp [zip3]
  | [], _, c :: cs, _, hc => by simp at hc
  | a :: as, [], cs, hb, hc => by simp at hb
  | a :: as, b :: bs, [], hb, hc => by simp at hc
  | a :: as, b :: bs, c :: cs, hb, hc => by
    simp only [zip3, List.map_cons, List.cons.injEq, true_and]
    exact zip3_map_out as bs cs (by simpa using hb) (by simpa using hc)

/-- On the stacked arrays of the rules table, successive rows are
consecutive: each row starts one past the previous row's end. -/
theorem zip3_chain_consecutive :
    ∀ (vals : List ℤ) (pct : List ℚ) (x e2 : ℤ) (y : ℚ),
    pct.length = vals.length →
    List.Chain' (fun r r' => r'.lo = r.hi + 1)
      (zip3 (x :: vals) (vals.map (fun v => v - 1) ++ [e2]) (y :: pct))
  | [], [], x, e2, y, _ => by simp [zip3]
  | [], p :: ps, _, _, _, h => by simp at h
  | v :: vs, [], _, _, _, h => by simp at h
  | v :: vs, p :: ps, x, e2, y, h => by
    have hrest := zip3_chain_consecutive vs ps v e2 p (by simpa using h)
    cases vs with
    | nil =>
      cases ps with
      | nil => simp [zip3]
      | cons q qs => simp at h
    | cons w ws =>
      refine List.Chain'.cons ?_ hrest
      simp [zip3]
  termination_by vals _ _ _ _ _ => vals.length

/-- A gap-free rule list covers every value between the first row's start
and the last row's end. -/
theorem chain_covers :
    ∀ (rules : List RecodeRule),
    List.Chain' (fun r r' => r'.lo = r.hi + 1) rules →
    ∀ x : ℤ, ∀ h : rules ≠ [],
    (rules.head h).lo ≤ x → x ≤ (rules.getLast h).hi →
    ∃ r ∈ rules, r.lo ≤ x ∧ x ≤ r.hi
  | [], _, x, h, _, _ => absurd rfl h
  | [r], _, x, h, h1, h2 => ⟨r, by simp, by simpa using h1, by simpa using h2⟩
  | r :: r' :: rest, hch, x, h, h1, h2 => by
    by_cases hx : x ≤ r.hi
    · exact ⟨r, by simp, by simpa using h1, hx⟩
    · have hlo : r'.lo = r.hi + 1 := (List.chain'_cons.mp hch).1
      have hch' := (List.chain'_cons.mp hch).2
      have h1' : r'.lo ≤ x := by omega
      have h2' : x ≤ ((r' :: rest).getLast (by simp)).hi := by
        have : (r :: r' :: rest).getLast h = (r' :: rest).getLast (by simp) :=
          List.getLast_cons (by simp)
        rw [this] at h2
        exact h2
      obtain ⟨s, hs, hs1, hs2⟩ :=
        chain_covers (r' :: rest) hch' x (by simp) (by simpa using h1') h2'
      exact ⟨s, List.mem_cons_of_mem r hs, hs1, hs2⟩

/-- Running sums of nonnegative summands are non-decreasing. -/
theorem chain_le_scanl (counts : List ℚ) (hpos : ∀ c ∈ counts, 0 ≤ c) :
    ∀ a : ℚ, List.Chain' (· ≤ ·) (counts.scanl (· + ·) a) := by
  induction counts with
  | nil => intro a; simp [List.scanl]
  | cons c cs ih =>
    intro a
    have hc : 0 ≤ c := hpos c (by simp)
    have ih' := ih (fun d hd => hpos d (by simp [hd])) (a + c)
    rw [List.scanl]
    refine List.chain'_cons'.mpr ⟨?_, ih'⟩
    intro h hh
    cases cs with
    | nil =>
      simp [List.scanl] at hh
      rw [← hh]; linarith
    | cons d ds =>
      simp [List.scanl] at hh
      rw [← hh]; linarith

/-- Strictly ascending list: the minimum is the head. -/
theorem min?_of_chain_lt :
    ∀ (v : ℤ) (vs : List ℤ), List.Chain' (· < ·) (v :: vs) →
    (v :: vs).min? = some v
  | v, [], _ => rfl
  | v, w :: ws, h => by
    have htail := min?_of_chain_lt w ws (List.Chain'.tail h)
    have hvw : v < w := (List.chain'_cons.mp h).1
    rw [List.min?_cons, htail]
    simp only [Option.elim_some]
    rw [min_eq_left (le_of_lt hvw)]

/-- Strictly ascending list: the maximum is the last element (which the head
does not exceed). -/
theorem max?_of_chain_lt :
    ∀ (v : ℤ) (vs : List ℤ), List.Chain' (· < ·) (v :: vs) →
    (v :: vs).max? = some ((v :: vs).getLast (by simp)) ∧
    v ≤ (v :: vs).getLast (by simp)
  | v, [], _ => ⟨rfl, le_refl v⟩
  | v, w :: ws, h => by
    obtain ⟨htail, hle⟩ := max?_of_chain_lt w ws (List.Chain'.tail h)
    have hvw : v < w := (List.chain'_cons.mp h).1
    have hL : (v :: w :: ws).getLast (by simp) = (w :: ws).getLast (by simp) :=
      List.getLast_cons (by simp)
    constructor
    · rw [List.max?_cons, htail, hL]
      simp only [Option.elim_some]
      rw [max_eq_right (le_trans (le_of_lt hvw) hle)]
    · rw [hL]
      exact le_trans (le_of_lt hvw) hle

/-- The list `0 :: c` of rule outputs, as a map over the raw running sums. -/
theorem zero_cons_cumulativePct (counts : List ℚ) :
    0 :: cumulativePct counts
      = (counts.scanl (· + ·) 0).map (fun a => a / counts.sum * 100) := by
  cases counts with
  | nil => simp [cumulativePct, cumsum, List.scanl]
  | cons c cs =>
    rw [List.scanl]
    simp only [cumulativePct, cumsum, List.scanl, List.tail_cons, List.map_cons]
    norm_num

/-- Length of the cumulative-percentile column equals that of the counts. -/
theorem cumulativePct_length (counts : List ℚ) :
    (cumulativePct counts).length = counts.length := by
  simp [cumulativePct, cumsum, List.length_scanl, List.length_tail]

end RMess

/-- Claim C1: in `compute_ies`, a cell whose recoded percentile is 50 (the
reference median) gets similarity 100; a cell with percentile 0 gets the
linear extrapolation `(v - envmin)/(envmax - envmin) * 100` and a cell with
percentile 100 gets `(envmax - v)/(envmax - envmin) * 100`; and the piecewise
formula is continuous at the boundaries: at `v = envmin` the percentile-0
branch evaluates to 0, matching the interior branch `2*p` as `p → 0`, and at
`v = envmax` the percentile-100 branch evaluates to 0, matching the interior
branch `2*(100 - p)` as `p → 100`. -/
theorem rmess_compute_ies_formula (v envmin envmax : ℚ)
    (hne : envmax ≠ envmin) :
    RMess.iesScore 50 v envmin envmax = 100 ∧
    RMess.iesScore 0 v envmin envmax = (v - envmin) / (envmax - envmin) * 100 ∧
    RMess.iesScore 100 v envmin envmax
      = (envmax - v) / (envmax - envmin) * 100 ∧
    RMess.iesScore 0 envmin envmin envmax = 0 ∧
    RMess.iesScore 100 envmax envmin envmax = 0 ∧
    (2 : ℚ) * 0 = 0 ∧ (2 : ℚ) * (100 - 100) = 0 := by
  refine ⟨by norm_num [RMess.iesScore], by norm_num [RMess.iesScore],
    by norm_num [RMess.iesScore], by norm_num [RMess.iesScore],
    by norm_num [RMess.iesScore], by norm_num, by norm_num⟩

/-- Witness for C1 at concrete inputs: envmin = 2, envmax = 10, v = 7. -/
theorem rmess_compute_ies_formula_witness :
    RMess.iesScore 50 7 2 10 = 100 ∧
    RMess.iesScore 0 7 2 10 = (7 - 2) / (10 - 2) * 100 ∧
    RMess.iesScore 100 7 2 10 = (10 - 7) / (10 - 2) * 100 ∧
    RMess.iesScore 0 2 2 10 = 0 ∧
    RMess.iesScore 100 10 2 10 = 0 ∧
    (2 : ℚ) * 0 = 0 ∧ (2 : ℚ) * (100 - 100) = 0 := by
  have h := rmess_compute_ies_formula 7 2 10 (by norm_num)
  exact h

/-- Claim C2: for every frequency table built by r.mess from sorted observed
values `v_0 < ... < v_k` (raster-statistics or point-sample path), the
generated recode rule table consists of the consecutive intervals
`[e1, v_0 - 1], [v_0, v_1 - 1], ..., [v_k, e2]` with `e1 < v_0` and
`e2 > v_k`, the intervals leave no gap (each starts one past the previous
end) and cover the whole observed value range, and the outputs
`0, c_0, ..., c_k` are monotonically non-decreasing. -/
theorem rmess_recode_rules_monotone_exhaustive
    (vals : List ℤ) (counts : List ℚ) (Dmin Dmax : ℤ)
    (hne : vals ≠ [])
    (hsort : List.Chain' (· < ·) vals)
    (hlen : counts.length = vals.length)
    (hpos : ∀ c ∈ counts, 0 ≤ c) :
    (RMess.buildRules vals counts Dmin Dmax).map RMess.RecodeRule.lo
        = RMess.mkE1 Dmin (vals.head hne) :: vals ∧
    (RMess.buildRules vals counts Dmin Dmax).map RMess.RecodeRule.hi
        = vals.map (fun v => v - 1)
            ++ [RMess.mkE2 Dmax (vals.getLast hne)] ∧
    (RMess.buildRules vals counts Dmin Dmax).map RMess.RecodeRule.out
        = 0 :: RMess.cumulativePct counts ∧
    RMess.mkE1 Dmin (vals.head hne) < vals.head hne ∧
    vals.getLast hne < RMess.mkE2 Dmax (vals.getLast hne) ∧
    List.Chain' (fun r r' => r'.lo = r.hi + 1)
      (RMess.buildRules vals counts Dmin Dmax) ∧
    (∀ x : ℤ, vals.head hne ≤ x → x ≤ vals.getLast hne →
      ∃ r ∈ RMess.buildRules vals counts Dmin Dmax, r.lo ≤ x ∧ x ≤ r.hi) ∧
    List.Chain' (fun r r' => r.out ≤ r'.out)
      (RMess.buildRules vals counts Dmin Dmax) := by
  obtain ⟨v, vs, rfl⟩ : ∃ v vs, vals = v :: vs := by
    cases vals with
    | nil => exact absurd rfl hne
    | cons v vs => exact ⟨v, vs, rfl⟩
  have hmin : (v :: vs).min? = some v := RMess.min?_of_chain_lt v vs hsort
  obtain ⟨hmax, hhl⟩ := RMess.max?_of_chain_lt v vs hsort
  set L := (v :: vs).getLast (by simp) with hLdef
  have hbr : RMess.buildRules (v :: vs) counts Dmin Dmax
      = RMess.zip3 (RMess.mkE1 Dmin v :: v :: vs)
          ((v :: vs).map (fun t => t - 1) ++ [RMess.mkE2 Dmax L])
          (0 :: RMess.cumulativePct counts) := by
    unfold RMess.buildRules
    rw [hmin, hmax]
    rfl
  have hhead : (v :: vs).head hne = v := rfl
  have hlen1 : ((v :: vs).map (fun t => t - 1)
      ++ [RMess.mkE2 Dmax L]).length = (RMess.mkE1 Dmin v :: v :: vs).length := by
    simp
  have hlen2 : (0 :: RMess.cumulativePct counts).length
      = (RMess.mkE1 Dmin v :: v :: vs).length := by
    simp [RMess.cumulativePct_length, hlen]
  have hpct : (RMess.cumulativePct counts).length = (v :: vs).length := by
    rw [RMess.cumulativePct_length, hlen]
  have hmaplo := RMess.zip3_map_lo _ _ _ hlen1 hlen2
  have hmaphi := RMess.zip3_map_hi _ _ _ hlen1 hlen2
  have hmapout := RMess.zip3_map_out _ _ _ hlen1 hlen2
  have hchain : List.Chain' (fun r r' => r'.lo = r.hi + 1)
      (RMess.buildRules (v :: vs) counts Dmin Dmax) := by
    rw [hbr]
    exact RMess.zip3_chain_consecutive (v :: vs) (RMess.cumulativePct counts)
      (RMess.mkE1 Dmin v) (RMess.mkE2 Dmax L) 0 hpct
  have he1 : RMess.mkE1 Dmin v < v := by
    unfold RMess.mkE1; split <;> omega
  have he2 : L < RMess.mkE2 Dmax L := by
    unfold RMess.mkE2; split <;> omega
  refine ⟨by rw [hbr]; exact hmaplo,
          by rw [hbr]; exact hmaphi,
          by rw [hbr]; exact hmapout,
          he1, he2, hchain, ?_, ?_⟩
  · -- coverage of the observed value range
    intro x hx1 hx2
    have hne2 : RMess.buildRules (v :: vs) counts Dmin Dmax ≠ [] := by
      rw [hbr]
      cases counts with
      | nil => simp at hlen
      | cons c cs => simp [RMess.zip3, RMess.cumulativePct, RMess.cumsum,
          List.scanl]
    have hhead2 : ((RMess.buildRules (v :: vs) counts Dmin Dmax).head hne2).lo
        ≤ x := by
      have h1 : ((RMess.buildRules (v :: vs) counts Dmin Dmax).map
          RMess.RecodeRule.lo).head? = some (RMess.mkE1 Dmin v) := by
        rw [hbr, hmaplo]
        rfl
      rw [List.head?_map, List.head?_eq_head hne2] at h1
      simp only [Option.map_some', Option.some.injEq] at h1
      rw [h1]
      have hvx : v ≤ x := hx1
      omega
    have hlast2 : x ≤ ((RMess.buildRules (v :: vs) counts Dmin Dmax).getLast
        hne2).hi := by
      have h2 : ((RMess.buildRules (v :: vs) counts Dmin Dmax).map
          RMess.RecodeRule.hi).getLast? = some (RMess.mkE2 Dmax L) := by
        rw [hbr, hmaphi, List.getLast?_concat]
      rw [List.getLast?_map, List.getLast?_eq_getLast _ hne2] at h2
      simp only [Option.map_some', Option.some.injEq] at h2
      rw [h2]
      have hxL : x ≤ L := hx2
      omega
    exact RMess.chain_covers _ hchain x hne2 hhead2 hlast2
  · -- monotone outputs
    have hS : (0 : ℚ) ≤ counts.sum := List.sum_nonneg hpos
    have hmono : ∀ a b : ℚ, a ≤ b →
        a / counts.sum * 100 ≤ b / counts.sum * 100 := by
      intro a b hab
      have h100S : (0 : ℚ) ≤ 100 / counts.sum :=
        div_nonneg (by norm_num) hS
      calc a / counts.sum * 100 = a * (100 / counts.sum) := by ring
        _ ≤ b * (100 / counts.sum) := mul_le_mul_of_nonneg_right hab h100S
        _ = b / counts.sum * 100 := by ring
    have hscan : List.Chain' (· ≤ ·) (counts.scanl (· + ·) 0) :=
      RMess.chain_le_scanl counts hpos 0
    have houts : List.Chain' (· ≤ ·) (0 :: RMess.cumulativePct counts) := by
      rw [RMess.zero_cons_cumulativePct]
      exact List.chain'_map_of_chain' _ (fun {a b} h => hmono a b h) hscan
    have : List.Chain' (· ≤ ·)
        ((RMess.buildRules (v :: vs) counts Dmin Dmax).map
          RMess.RecodeRule.out) := by
      rw [hbr, hmapout]
      exact houts
    exact (List.chain'_map RMess.RecodeRule.out).mp this

/-- Witness for C2 at the concrete frequency table
`(2,1), (5,2), (9,1)` with projection range `[0, 12]`. -/
theorem rmess_recode_rules_witness :
    ([2, 5, 9] : List ℤ) ≠ [] ∧
    List.Chain' (· < ·) ([2, 5, 9] : List ℤ) ∧
    ([1, 2, 1] : List ℚ).length = ([2, 5, 9] : List ℤ).length ∧
    (∀ c ∈ ([1, 2, 1] : List ℚ), 0 ≤ c) ∧
    (List.Chain' (fun r r' => r'.lo = r.hi + 1)
        (RMess.buildRules [2, 5, 9] [1, 2, 1] 0 12) ∧
      (∀ x : ℤ, ([2, 5, 9] : List ℤ).head (by simp) ≤ x →
        x ≤ ([2, 5, 9] : List ℤ).getLast (by simp) →
        ∃ r ∈ RMess.buildRules [2, 5, 9] [1, 2, 1] 0 12,
          r.lo ≤ x ∧ x ≤ r.hi) ∧
      List.Chain' (fun r r' => r.out ≤ r'.out)
        (RMess.buildRules [2, 5, 9] [1, 2, 1] 0 12)) := by
  have h := rmess_recode_rules_monotone_exhaustive [2, 5, 9] [1, 2, 1] 0 12
    (by simp) (by norm_num [List.chain'_cons]) (by decide) (by decide)
  exact ⟨by simp, by norm_num [List.chain'_cons], by decide, by decide,
    h.2.2.2.2.2.1, h.2.2.2.2.2.2.1, h.2.2.2.2.2.2.2⟩

namespace RRecodeAttr

theorem find?_eq_of_pred_eq {α : Type} (p q : α → Bool) :
    ∀ l : List α, (∀ a, p a = q a) → l.find? p = l.find? q
  | [], _ => rfl
  | a :: l, h => by
    simp only [List.find?]
    rw [h a]
    cases q a
    · exact find?_eq_of_pred_eq p q l h
    · rfl

/-- Recoding through the rules `(src, src, target_x)` of one column looks up
the cell value among the source values and yields that row's target. -/
theorem recodeCell_column (rows : List (ℚ × List ℚ)) (x : ℕ) (c : ℚ) :
    recodeCell (rows.map (fun r => (r.1, r.1, r.2.getD x 0))) c
      = (rows.find? (fun r => r.1 == c)).map (fun r => r.2.getD x 0) := by
  unfold recodeCell
  rw [List.find?_map]
  rw [find?_eq_of_pred_eq _ (fun r => r.1 == c) rows ?_]
  · cases hf : rows.find? (fun r => r.1 == c) <;> simp
  · intro r
    simp only [Function.comp]
    by_cases h : r.1 = c
    · simp [h]
    · have hn : ¬(r.1 ≤ c ∧ c ≤ r.1) := fun hh => h (le_antisymm hh.1 hh.2)
      have h2 : ¬(r.1 ≤ c) ∨ ¬(c ≤ r.1) := by tauto
      rcases h2 with h2 | h2 <;> simp [h, h2]

end RRecodeAttr

/-- Claim C3: for a rules table with one source column and `T` target columns
and `N` output names, r.recode.attr builds one `value:value:new_value` rules
file per target column and invokes `r.recode` exactly once per column
(`T` jobs in total); when `T = N` the `x`-th output layer is named the `x`-th
given name and is the input recoded through the `x`-th target column's
mapping; when `T ≠ N` every output is named by concatenating the first given
name, an underscore and the corresponding column header. -/
theorem rrecodeattr_per_column_recode
    (T : ℕ) (header : List String) (rows : List (ℚ × List ℚ))
    (outNames : List String) (input : List ℚ) (x : ℕ) (hx : x < T) :
    (RRecodeAttr.recodeAttrJobs T header rows outNames).length = T ∧
    ((RRecodeAttr.recodeAttrJobs T header rows outNames).getD x
        ⟨"", []⟩).rules
      = rows.map (fun r => (r.1, r.1, r.2.getD x 0)) ∧
    (T = outNames.length →
      ((RRecodeAttr.recodeAttrJobs T header rows outNames).getD x
          ⟨"", []⟩).name = outNames.getD x "") ∧
    (T ≠ outNames.length →
      ((RRecodeAttr.recodeAttrJobs T header rows outNames).getD x
          ⟨"", []⟩).name
        = outNames.headD "" ++ "_" ++ header.getD (x + 1) "") ∧
    RRecodeAttr.applyRecode
      ((RRecodeAttr.recodeAttrJobs T header rows outNames).getD x
          ⟨"", []⟩).rules input
      = input.map (fun c =>
          (rows.find? (fun r => r.1 == c)).map (fun r => r.2.getD x 0)) := by
  have hlen : (RRecodeAttr.recodeAttrJobs T header rows outNames).length
      = T := by
    simp [RRecodeAttr.recodeAttrJobs]
  have hjob : (RRecodeAttr.recodeAttrJobs T header rows outNames).getD x
      ⟨"", []⟩
      = { name :=
            if T = outNames.length then outNames.getD x ""
            else outNames.headD "" ++ "_" ++ header.getD (x + 1) "",
          rules := rows.map (fun r => (r.1, r.1, r.2.getD x 0)) } := by
    rw [List.getD_eq_getElem _ _ (by rw [hlen]; exact hx)]
    simp [RRecodeAttr.recodeAttrJobs]
  refine ⟨hlen, by rw [hjob], ?_, ?_, ?_⟩
  · intro hT
    rw [hjob]
    simp [hT]
  · intro hT
    rw [hjob]
    simp [hT]
  · rw [hjob]
    unfold RRecodeAttr.applyRecode
    refine List.map_congr_left ?_
    intro c _
    exact RRecodeAttr.recodeCell_column rows x c

/-- Witness for C3: table with source column `val` and target columns
`a`, `b`; two rows `(1, 10, 20)` and `(2, 30, 40)`; output names `x`, `y`;
input raster `[1, 2, 3]`; column 0. -/
theorem rrecodeattr_per_column_recode_witness :
    0 < 2 ∧
    (RRecodeAttr.recodeAttrJobs 2 ["val", "a", "b"]
        [(1, [10, 20]), (2, [30, 40])] ["x", "y"]).length = 2 ∧
    ((RRecodeAttr.recodeAttrJobs 2 ["val", "a", "b"]
        [(1, [10, 20]), (2, [30, 40])] ["x", "y"]).getD 0 ⟨"", []⟩).name
      = "x" ∧
    RRecodeAttr.applyRecode
      ((RRecodeAttr.recodeAttrJobs 2 ["val", "a", "b"]
          [(1, [10, 20]), (2, [30, 40])] ["x", "y"]).getD 0 ⟨"", []⟩).rules
      [1, 2, 3]
      = [some 10, some 30, none] := by
  have h := rrecodeattr_per_column_recode 2 ["val", "a", "b"]
    [(1, [10, 20]), (2, [30, 40])] ["x", "y"] [1, 2, 3] 0 (by decide)
  refine ⟨by decide, h.1, ?_, ?_⟩
  · rw [h.2.2.1 rfl]
    rfl
  · rw [h.2.2.2.2]
    decide

/-- Claim C8: when the computational region's north-south resolution differs
from its east-west resolution, r.maxent.predict without the `-e` flag fails
fatally at the resolution check (aborting `main` before the predictor
subprocess section), and with the flag set it continues with both
resolutions adjusted to the smaller of the two. -/
theorem rmaxent_resolution_check (nsres ewres : ℚ) (hne : nsres ≠ ewres) :
    RMaxentPredict.checkResolution nsres ewres false
      = RMaxentPredict.ResolutionOutcome.fatal ∧
    RMaxentPredict.checkResolution nsres ewres true
      = RMaxentPredict.ResolutionOutcome.continueWith
          (min nsres ewres) (min nsres ewres) := by
  constructor <;> simp [RMaxentPredict.checkResolution, hne]

/-- Witness for C8 at resolutions 3 and 2. -/
theorem rmaxent_resolution_check_witness :
    (3 : ℚ) ≠ 2 ∧
    (RMaxentPredict.checkResolution 3 2 false
        = RMaxentPredict.ResolutionOutcome.fatal ∧
      RMaxentPredict.checkResolution 3 2 true
        = RMaxentPredict.ResolutionOutcome.continueWith
            (min 3 2) (min 3 2)) :=
  ⟨by norm_num, rmaxent_resolution_check 3 2 (by norm_num)⟩

/-- Claim C5 (settled as a code bug): after the Maxent subprocess, a stderr
line containing `java.util.NoSuchElementException` with a non-zero exit
yields the clearer variable-names diagnostic; exit code zero with the grid
present imports it as the named output; exit code zero with the grid missing
is fatal; but a non-zero exit with no signature line evaluates the unbound
local `missing_variables` and raises `UnboundLocalError` instead of the
descriptive `Maxent terminated with an error` fatal, which is unreachable. -/
theorem rmaxent_subprocess_outcomes :
    RMaxentPredict.maxentRunOutcome
        ["Error: java.util.NoSuchElementException thrown"] 1 true "pred"
      = RMaxentPredict.MaxentRunOutcome.fatal
          RMaxentPredict.missingVariablesMsg ∧
    RMaxentPredict.maxentRunOutcome ["done"] 0 true "pred"
      = RMaxentPredict.MaxentRunOutcome.importGrid "pred" ∧
    RMaxentPredict.maxentRunOutcome ["done"] 0 false "pred"
      = RMaxentPredict.MaxentRunOutcome.fatal RMaxentPredict.noOutputMsg ∧
    RMaxentPredict.maxentRunOutcome ["out of memory"] 1 false "pred"
      = RMaxentPredict.MaxentRunOutcome.unboundLocal "missing_variables" := by
  exact ⟨rfl, rfl, rfl, rfl⟩

/-- Claim C9: the exit-time cleanup callback of r.maxent.predict never
removes the temporary export directory: `temp_directory` is bound only as a
local of `main`, so cleanup's module-scope lookup fails, the error is
swallowed by the bare `except: pass`, and the filesystem is unchanged on
every run (the exported `.asc` grids persist). -/
theorem rmaxent_cleanup_noop (fs : List String) :
    RMaxentPredict.cleanup RMaxentPredict.temp_directory_global fs = fs := rfl

/-- Claim C7: v.in.gbif's CSV conversion converts in one pass when the
primary (system default) decode succeeds; when the primary decode raises a
decoding error it retries exactly once, with the fallback encoding in
permissive (`errors="replace"`) mode; and it terminates fatally on a
decoding error exactly when both the primary and the fallback attempt raise
one. -/
theorem vingbif_two_tier_encoding_fallback
    (attempt : Option String → VInGbif.ErrorMode → Except VInGbif.PyErr Unit)
    (primary : Option String) (fallback : String) :
    (attempt primary .strictMode = .ok () →
      VInGbif.process_csv attempt primary fallback
        = ⟨[(primary, .strictMode)], .ok⟩) ∧
    (∀ e, attempt primary .strictMode
        = .error (.unicodeDecodeError e) →
      (VInGbif.process_csv attempt primary fallback).attempts
        = [(primary, .strictMode), (some fallback, .replaceMode)]) ∧
    (∀ e e2, attempt primary .strictMode = .error (.unicodeDecodeError e) →
      attempt (some fallback) .replaceMode
        = .error (.unicodeDecodeError e2) →
      (VInGbif.process_csv attempt primary fallback).outcome
        = .fatalDecode e2) ∧
    (∀ e2, (VInGbif.process_csv attempt primary fallback).outcome
        = .fatalDecode e2 →
      (∃ e, attempt primary .strictMode
          = .error (.unicodeDecodeError e)) ∧
      attempt (some fallback) .replaceMode
        = .error (.unicodeDecodeError e2)) := by
  refine ⟨?_, ?_, ?_, ?_⟩
  · intro h
    simp [VInGbif.process_csv, h]
  · intro e h
    cases hf : attempt (some fallback) .replaceMode with
    | ok u => simp [VInGbif.process_csv, h, hf]
    | error pe => cases pe <;> simp [VInGbif.process_csv, h, hf]
  · intro e e2 h hf
    simp [VInGbif.process_csv, h, hf]
  · intro e2 hout
    cases hp : attempt primary .strictMode with
    | ok u =>
      cases u
      simp [VInGbif.process_csv, hp] at hout
    | error pe =>
      cases pe with
      | unicodeDecodeError e =>
        cases hf : attempt (some fallback) .replaceMode with
        | ok u =>
          cases u
          simp [VInGbif.process_csv, hp, hf] at hout
        | error pe2 =>
          cases pe2 with
          | unicodeDecodeError e2x =>
            simp [VInGbif.process_csv, hp, hf] at hout
            rw [← hout]
            exact ⟨⟨e, rfl⟩, rfl⟩
          | fileNotFoundError f =>
            simp [VInGbif.process_csv, hp, hf] at hout
          | otherError m =>
            simp [VInGbif.process_csv, hp, hf] at hout
      | fileNotFoundError f =>
        simp [VInGbif.process_csv, hp] at hout
      | otherError m =>
        simp [VInGbif.process_csv, hp] at hout

/-- Witness for C7: a file whose system-default decode raises a decoding
error and whose fallback decode succeeds is retried exactly once with the
fallback in permissive mode. -/
theorem vingbif_two_tier_encoding_fallback_witness :
    ((fun (enc : Option String) (_ : VInGbif.ErrorMode) =>
        if enc = none then
          Except.error (VInGbif.PyErr.unicodeDecodeError "bad byte")
        else (Except.ok () : Except VInGbif.PyErr Unit)) none
        VInGbif.ErrorMode.strictMode
      = Except.error (VInGbif.PyErr.unicodeDecodeError "bad byte")) ∧
    (VInGbif.process_csv
        (fun (enc : Option String) (_ : VInGbif.ErrorMode) =>
          if enc = none then
            Except.error (VInGbif.PyErr.unicodeDecodeError "bad byte")
          else (Except.ok () : Except VInGbif.PyErr Unit))
        none "utf-8").attempts
      = [(none, .strictMode), (some "utf-8", .replaceMode)] :=
  ⟨rfl,
    (vingbif_two_tier_encoding_fallback
      (fun (enc : Option String) (_ : VInGbif.ErrorMode) =>
        if enc = none then
          Except.error (VInGbif.PyErr.unicodeDecodeError "bad byte")
        else (Except.ok () : Except VInGbif.PyErr Unit))
      none "utf-8").2.1 "bad byte" rfl⟩

namespace VBoxplot

/-- A string with a non-empty suffix appended is non-empty. -/
theorem append_ne_empty (s t : String) (ht : t ≠ "") : s ++ t ≠ "" := by
  intro hc
  apply ht
  have hd : (s ++ t).data = ("" : String).data := by rw [hc]
  rw [String.data_append] at hd
  simp only [String.data] at hd
  have h2 : t.data = [] := (List.append_eq_nil.mp (by simpa using hd)).2
  apply String.ext
  simpa using h2

end VBoxplot

/-- Claim C10: v.boxplot always appends the condition that the value column
IS NOT NULL to the selection — conjoined with AND when the user supplies a
where clause, alone otherwise — the constructed clause is never empty (so
the `if where:` selection branch is always taken), and every row selected
under the resulting condition has a non-NULL value. -/
theorem vboxplot_null_rows_excluded (userWhere column : String)
    (p : VBoxplot.DbRow → Bool) (rows : List VBoxplot.DbRow)
    (h : userWhere ≠ "") :
    VBoxplot.buildWhere userWhere column
      = userWhere ++ " AND " ++ column ++ " IS NOT NULL" ∧
    VBoxplot.buildWhere "" column = column ++ " IS NOT NULL" ∧
    VBoxplot.buildWhere userWhere column ≠ "" ∧
    VBoxplot.buildWhere "" column ≠ "" ∧
    (∀ r ∈ VBoxplot.selectRows (some p) rows, r.value ≠ none) ∧
    (∀ r ∈ VBoxplot.selectRows none rows, r.value ≠ none) := by
  have hb1 : VBoxplot.buildWhere userWhere column
      = userWhere ++ " AND " ++ column ++ " IS NOT NULL" := by
    simp [VBoxplot.buildWhere, h]
  have hb2 : VBoxplot.buildWhere "" column = column ++ " IS NOT NULL" := by
    simp [VBoxplot.buildWhere]
  refine ⟨hb1, hb2, ?_, ?_, ?_, ?_⟩
  · rw [hb1]
    exact VBoxplot.append_ne_empty _ _ (by decide)
  · rw [hb2]
    exact VBoxplot.append_ne_empty _ _ (by decide)
  · intro r hr
    simp only [VBoxplot.selectRows, List.mem_filter, Bool.and_eq_true] at hr
    exact Option.isSome_iff_ne_none.mp hr.2.2
  · intro r hr
    simp only [VBoxplot.selectRows, List.mem_filter] at hr
    exact Option.isSome_iff_ne_none.mp hr.2

/-- Witness for C10 with user clause `year > 2000`, column `height` and
two rows, one of which is NULL. -/
theorem vboxplot_null_rows_excluded_witness :
    ("year > 2000" : String) ≠ "" ∧
    (VBoxplot.buildWhere "year > 2000" "height"
        = "year > 2000" ++ " AND " ++ "height" ++ " IS NOT NULL" ∧
      VBoxplot.buildWhere "" "height" = "height" ++ " IS NOT NULL" ∧
      VBoxplot.buildWhere "year > 2000" "height" ≠ "" ∧
      VBoxplot.buildWhere "" "height" ≠ "" ∧
      (∀ r ∈ VBoxplot.selectRows (some (fun _ => true))
          [⟨some 3⟩, ⟨none⟩], r.value ≠ none) ∧
      (∀ r ∈ VBoxplot.selectRows none
          ([⟨some 3⟩, ⟨none⟩] : List VBoxplot.DbRow), r.value ≠ none)) :=
  ⟨by decide,
    vboxplot_null_rows_excluded "year > 2000" "height" (fun _ => true)
      [⟨some 3⟩, ⟨none⟩] (by decide)⟩

namespace VBoxplot

/-- Inserting preserves the multiset of rows. -/
theorem insRow_perm (cmp : ℚ → ℚ → Bool) (a : String × ℚ) :
    ∀ l, (insRow cmp a l).Perm (a :: l)
  | [] => List.Perm.refl _
  | b :: l => by
    unfold insRow
    split
    · exact List.Perm.refl _
    · exact ((insRow_perm cmp a l).cons b).trans (List.Perm.swap a b l)

/-- The key sort permutes the `sf` table. -/
theorem sortRowsBy_perm (cmp : ℚ → ℚ → Bool) :
    ∀ l, (sortRowsBy cmp l).Perm l
  | [] => List.Perm.refl _
  | a :: l => (insRow_perm cmp a _).trans ((sortRowsBy_perm cmp l).cons a)

/-- Inserting keeps the list pairwise ordered under a total transitive
comparison. -/
theorem insRow_pairwise (cmp : ℚ → ℚ → Bool)
    (htot : ∀ x y, cmp x y = true ∨ cmp y x = true)
    (htr : ∀ x y z, cmp x y = true → cmp y z = true → cmp x z = true)
    (a : String × ℚ) :
    ∀ l, l.Pairwise (fun u v => cmp u.2 v.2 = true) →
    (insRow cmp a l).Pairwise (fun u v => cmp u.2 v.2 = true)
  | [], _ => List.pairwise_singleton _ a
  | b :: l, hl => by
    obtain ⟨hb, hl'⟩ := List.pairwise_cons.mp hl
    unfold insRow
    split
    · refine List.pairwise_cons.mpr ⟨?_, hl⟩
      intro v hv
      rcases List.mem_cons.mp hv with rfl | hv
      · assumption
      · exact htr _ _ _ (by assumption) (hb v hv)
    · have hba : cmp b.2 a.2 = true := by
        rcases htot a.2 b.2 with h | h
        · exact absurd h (by assumption)
        · exact h
      refine List.pairwise_cons.mpr ⟨?_, insRow_pairwise cmp htot htr a l hl'⟩
      intro v hv
      have hv' : v ∈ a :: l := (insRow_perm cmp a l).mem_iff.mp hv
      rcases List.mem_cons.mp hv' with rfl | hv'
      · exact hba
      · exact hb v hv'

/-- The key sort produces a pairwise-ordered table under a total transitive
comparison. -/
theorem sortRowsBy_pairwise (cmp : ℚ → ℚ → Bool)
    (htot : ∀ x y, cmp x y = true ∨ cmp y x = true)
    (htr : ∀ x y z, cmp x y = true → cmp y z = true → cmp x z = true) :
    ∀ l, (sortRowsBy cmp l).Pairwise (fun u v => cmp u.2 v.2 = true)
  | [] => List.Pairwise.nil
  | a :: l =>
    insRow_pairwise cmp htot htr a _ (sortRowsBy_pairwise cmp htot htr l)

/-- In a table with strictly descending medians and no duplicate names,
the index of a row's name equals the number of rows with a strictly larger
median. -/
theorem indexOf_eq_count_gt :
    ∀ (l : List (String × ℚ)),
    l.Pairwise (fun u v => v.2 < u.2) →
    (l.map (fun r => r.1)).Nodup →
    ∀ p ∈ l,
    (l.map (fun r => r.1)).indexOf p.1
      = (l.filter (fun r => decide (p.2 < r.2))).length
  | [], _, _, p, hp => absurd hp (List.not_mem_nil p)
  | a :: t, hpw, hnd, p, hp => by
    obtain ⟨ha, hpw'⟩ := List.pairwise_cons.mp hpw
    obtain ⟨hand, hnd'⟩ := List.pairwise_cons.mp hnd
    rcases List.mem_cons.mp hp with rfl | hpt
    · rw [List.map_cons, List.indexOf_cons_self]
      have hfilter : (p :: t).filter (fun r => decide (p.2 < r.2)) = [] := by
        rw [List.filter_eq_nil]
        intro r hr
        simp only [decide_eq_true_eq]
        rcases List.mem_cons.mp hr with h1 | h2
        · rw [h1]
          exact lt_irrefl _
        · exact not_lt_of_lt (ha r h2)
      rw [hfilter]
      rfl
    · have hne : a.1 ≠ p.1 := by
        intro he
        exact hand p.1 (List.mem_map_of_mem (fun r => r.1) hpt) he
      rw [List.map_cons, List.indexOf_cons_ne _ hne]
      have hlt : decide (p.2 < a.2) = true := by
        simp only [decide_eq_true_eq]
        exact ha p hpt
      have hfc : (a :: t).filter (fun r => decide (p.2 < r.2))
          = a :: t.filter (fun r => decide (p.2 < r.2)) := by
        simp only [List.filter_cons, hlt, if_true]
      rw [hfc, indexOf_eq_count_gt t hpw' hnd' p hpt]
      rfl

end VBoxplot

/-- Claim C6: with a `group_by` column and `order=descending` over groups
with pairwise distinct medians, the sorted `sf` table has strictly
decreasing medians, and each group's box is placed at the position equal to
its rank in that ordering (the number of groups with a strictly larger
median); with `order=ascending` the sorted table is exactly the reverse of
the descending one. -/
theorem vboxplot_descending_median_order
    (rows : List (String × ℚ)) (uid : List String)
    (hnd : uid.Nodup)
    (hdist : (VBoxplot.sfTable rows uid).Pairwise
      (fun u v => u.2 ≠ v.2)) :
    ((VBoxplot.sortTable true (VBoxplot.sfTable rows uid)).map
        (fun r => r.2)).Pairwise (· > ·) ∧
    ((VBoxplot.sortTable false (VBoxplot.sfTable rows uid)).map
        (fun r => r.2)).Pairwise (· < ·) ∧
    VBoxplot.sortTable false (VBoxplot.sfTable rows uid)
      = (VBoxplot.sortTable true (VBoxplot.sfTable rows uid)).reverse ∧
    VBoxplot.boxPositions true rows uid
      = uid.map (fun g =>
          (uid.filter (fun g2 => decide (VBoxplot.medOf rows g
            < VBoxplot.medOf rows g2))).length) := by
  have hpT : (VBoxplot.sortTable true (VBoxplot.sfTable rows uid)).Perm
      (VBoxplot.sfTable rows uid) :=
    VBoxplot.sortRowsBy_perm _ _
  have hpF : (VBoxplot.sortTable false (VBoxplot.sfTable rows uid)).Perm
      (VBoxplot.sfTable rows uid) :=
    VBoxplot.sortRowsBy_perm _ _
  have htotT : ∀ x y : ℚ, VBoxplot.keyCmp true x y = true ∨
      VBoxplot.keyCmp true y x = true := by
    intro x y
    rcases le_total y x with h | h
    · exact Or.inl (decide_eq_true h)
    · exact Or.inr (decide_eq_true h)
  have htrT : ∀ x y z : ℚ, VBoxplot.keyCmp true x y = true →
      VBoxplot.keyCmp true y z = true → VBoxplot.keyCmp true x z = true := by
    intro x y z h1 h2
    exact decide_eq_true
      (le_trans (of_decide_eq_true h2) (of_decide_eq_true h1))
  have htotF : ∀ x y : ℚ, VBoxplot.keyCmp false x y = true ∨
      VBoxplot.keyCmp false y x = true := by
    intro x y
    rcases le_total x y with h | h
    · exact Or.inl (decide_eq_true h)
    · exact Or.inr (decide_eq_true h)
  have htrF : ∀ x y z : ℚ, VBoxplot.keyCmp false x y = true →
      VBoxplot.keyCmp false y z = true → VBoxplot.keyCmp false x z = true := by
    intro x y z h1 h2
    exact decide_eq_true
      (le_trans (of_decide_eq_true h1) (of_decide_eq_true h2))
  have hsortT := VBoxplot.sortRowsBy_pairwise (VBoxplot.keyCmp true)
    htotT htrT (VBoxplot.sfTable rows uid)
  have hsortF := VBoxplot.sortRowsBy_pairwise (VBoxplot.keyCmp false)
    htotF htrF (VBoxplot.sfTable rows uid)
  have hdT : (VBoxplot.sortTable true (VBoxplot.sfTable rows uid)).Pairwise
      (fun u v => u.2 ≠ v.2) :=
    (List.Perm.pairwise_iff (fun h => Ne.symm h) hpT).mpr hdist
  have hdF : (VBoxplot.sortTable false (VBoxplot.sfTable rows uid)).Pairwise
      (fun u v => u.2 ≠ v.2) :=
    (List.Perm.pairwise_iff (fun h => Ne.symm h) hpF).mpr hdist
  have hstrictT : (VBoxplot.sortTable true
      (VBoxplot.sfTable rows uid)).Pairwise (fun u v => v.2 < u.2) := by
    refine (hsortT.and hdT).imp ?_
    rintro a b ⟨h1, h2⟩
    exact lt_of_le_of_ne (of_decide_eq_true h1) (Ne.symm h2)
  have hstrictF : (VBoxplot.sortTable false
      (VBoxplot.sfTable rows uid)).Pairwise (fun u v => u.2 < v.2) := by
    refine (hsortF.and hdF).imp ?_
    rintro a b ⟨h1, h2⟩
    exact lt_of_le_of_ne (of_decide_eq_true h1) h2
  refine ⟨List.pairwise_map.mpr hstrictT, List.pairwise_map.mpr hstrictF,
    ?_, ?_⟩
  · -- ascending sort is the reverse of the descending sort
    have hrev : ((VBoxplot.sortTable true
        (VBoxplot.sfTable rows uid)).reverse).Pairwise
        (fun u v => u.2 < v.2) :=
      List.pairwise_reverse.mpr hstrictT
    have hperm2 : (VBoxplot.sortTable false
        (VBoxplot.sfTable rows uid)).Perm
        ((VBoxplot.sortTable true (VBoxplot.sfTable rows uid)).reverse) :=
      hpF.trans (((List.reverse_perm _).trans hpT).symm)
    haveI : IsAntisymm (String × ℚ) (fun u v => u.2 < v.2) :=
      ⟨fun a b h1 h2 => absurd h1 (lt_asymm h2)⟩
    exact List.eq_of_perm_of_sorted hperm2 hstrictF hrev
  · -- box positions are the descending median ranks
    have hsfmap : (VBoxplot.sfTable rows uid).map (fun r => r.1) = uid := by
      unfold VBoxplot.sfTable
      rw [List.map_map]
      have h : ((fun r : String × ℚ => r.1)
          ∘ fun g => (g, VBoxplot.medOf rows g)) = fun g => g := rfl
      rw [h, List.map_id']
    have hnames_perm : ((VBoxplot.sortTable true
        (VBoxplot.sfTable rows uid)).map (fun r => r.1)).Perm uid := by
      have h := hpT.map (fun r => r.1)
      rw [hsfmap] at h
      exact h
    have hnames_nodup : ((VBoxplot.sortTable true
        (VBoxplot.sfTable rows uid)).map (fun r => r.1)).Nodup :=
      hnames_perm.symm.nodup hnd
    have hcontains : ∀ g ∈ uid,
        ((VBoxplot.sortTable true (VBoxplot.sfTable rows uid)).map
          (fun r => r.1)).contains g = true := by
      intro g hg
      have hmem : g ∈ (VBoxplot.sortTable true
          (VBoxplot.sfTable rows uid)).map (fun r => r.1) :=
        hnames_perm.mem_iff.mpr hg
      simp only [List.contains_eq_any_beq, List.any_eq_true]
      exact ⟨g, hmem, by simp⟩
    have hfilter_uid : uid.filter (fun g =>
        ((VBoxplot.sortTable true (VBoxplot.sfTable rows uid)).map
          (fun r => r.1)).contains g) = uid :=
      List.filter_eq_self.mpr hcontains
    simp only [VBoxplot.boxPositions]
    rw [hfilter_uid]
    refine List.map_congr_left ?_
    intro g hg
    have hpmem : (g, VBoxplot.medOf rows g)
        ∈ VBoxplot.sortTable true (VBoxplot.sfTable rows uid) :=
      hpT.mem_iff.mpr
        (List.mem_map_of_mem (fun g => (g, VBoxplot.medOf rows g)) hg)
    have hidx := VBoxplot.indexOf_eq_count_gt _ hstrictT hnames_nodup
      (g, VBoxplot.medOf rows g) hpmem
    rw [hidx]
    have hlen : ((VBoxplot.sortTable true (VBoxplot.sfTable rows uid)).filter
          (fun r => decide (VBoxplot.medOf rows g < r.2))).length
        = ((VBoxplot.sfTable rows uid).filter
          (fun r => decide (VBoxplot.medOf rows g < r.2))).length :=
      (hpT.filter _).length_eq
    rw [hlen]
    simp only [VBoxplot.sfTable, List.filter_map, List.length_map]
    have hco : ((fun r : String × ℚ => decide (VBoxplot.medOf rows g < r.2))
        ∘ fun g2 => (g2, VBoxplot.medOf rows g2))
        = fun g2 => decide (VBoxplot.medOf rows g < VBoxplot.medOf rows g2) :=
      rfl
    rw [hco]

/-- Witness for C6: three groups A, B, C with medians 10, 30, 20; with
order=descending the boxes of A, B, C are drawn at positions 2, 0, 1, i.e.
the plotted order is B(30), C(20), A(10). -/
theorem vboxplot_descending_median_order_witness :
    (["A", "B", "C"] : List String).Nodup ∧
    (VBoxplot.sfTable [("A", 10), ("B", 30), ("C", 20)]
        ["A", "B", "C"]).Pairwise (fun u v => u.2 ≠ v.2) ∧
    (((VBoxplot.sortTable true (VBoxplot.sfTable
          [("A", 10), ("B", 30), ("C", 20)] ["A", "B", "C"])).map
        (fun r => r.2)).Pairwise (· > ·) ∧
      ((VBoxplot.sortTable false (VBoxplot.sfTable
          [("A", 10), ("B", 30), ("C", 20)] ["A", "B", "C"])).map
        (fun r => r.2)).Pairwise (· < ·) ∧
      VBoxplot.sortTable false (VBoxplot.sfTable
          [("A", 10), ("B", 30), ("C", 20)] ["A", "B", "C"])
        = (VBoxplot.sortTable true (VBoxplot.sfTable
            [("A", 10), ("B", 30), ("C", 20)] ["A", "B", "C"])).reverse ∧
      VBoxplot.boxPositions true [("A", 10), ("B", 30), ("C", 20)]
          ["A", "B", "C"]
        = ["A", "B", "C"].map (fun g =>
            List.length (["A", "B", "C"].filter (fun g2 => decide
              (VBoxplot.medOf [("A", 10), ("B", 30), ("C", 20)] g
                < VBoxplot.medOf [("A", 10), ("B", 30), ("C", 20)] g2))))) ∧
    VBoxplot.boxPositions true [("A", 10), ("B", 30), ("C", 20)]
        ["A", "B", "C"] = [2, 0, 1] :=
  ⟨by decide, by decide,
    vboxplot_descending_median_order [("A", 10), ("B", 30), ("C", 20)]
      ["A", "B", "C"] (by decide) (by decide),
    by decide⟩

namespace TmpTracker

/-- Registration is monotone: a name on the cleanup list stays on it. -/
theorem contains_regAfter (n : Name) :
    ∀ (tr : List Event) (reg : List Name), reg.contains n = true →
    (regAfter reg tr).contains n = true
  | [], _, h => h
  | .register m :: tr, reg, h =>
    contains_regAfter n tr (m :: reg) (by
      simp only [List.contains_cons, Bool.or_eq_true]
      right
      simpa using h)
  | .engine _ _ :: tr, reg, h => contains_regAfter n tr reg h

/-- Checking a concatenated trace: check the first part, then the second
under the cleanup list the first part built. -/
theorem checkFrom_append :
    ∀ (t1 t2 : List Event) (reg : List Name),
    checkFrom reg (t1 ++ t2)
      = (checkFrom reg t1 && checkFrom (regAfter reg t1) t2)
  | [], t2, reg => by simp [checkFrom, regAfter]
  | .register m :: t1, t2, reg => by
    simp only [List.cons_append, checkFrom, regAfter]
    exact checkFrom_append t1 t2 (m :: reg)
  | .engine op creates :: t1, t2, reg => by
    simp only [List.cons_append, checkFrom, regAfter, List.append_eq]
    rw [checkFrom_append t1 t2 reg, Bool.and_assoc]

/-- One vector-path loop iteration registers its temporaries before the
engine calls that create them, whatever is already on the list. -/
theorem vectorBody_check (m : ℕ) (reg : List Name) :
    checkFrom reg (vectorBody m) = true := by
  simp [vectorBody, computeIesTrace, checkFrom, List.contains_cons]

/-- The whole vector-path loop preserves the invariant. -/
theorem vectorLoop_check :
    ∀ (k : ℕ) (reg : List Name), checkFrom reg (vectorLoop k) = true
  | 0, _ => rfl
  | Nat.succ k, reg => by
    rw [vectorLoop, checkFrom_append, vectorLoop_check k reg,
      vectorBody_check k]
    rfl

/-- One raster-path loop iteration keeps the invariant, provided the mask
temporary it renames was registered before the loop. -/
theorem rasterBody_check (refRast : Bool) (i : ℕ) (reg : List Name)
    (h : refRast = true → reg.contains (.tmp "tmpmsk1" 0) = true) :
    checkFrom reg (rasterBody refRast i) = true := by
  cases refRast with
  | false => simp [rasterBody, computeIesTrace, checkFrom, List.contains_cons]
  | true =>
    have h' : Name.tmp "tmpmsk1" 0 ∈ reg := by simpa using h rfl
    simp [rasterBody, computeIesTrace, checkFrom, List.contains_cons, h']

/-- The whole raster-path loop preserves the invariant. -/
theorem rasterLoop_check (refRast : Bool) :
    ∀ (k : ℕ) (reg : List Name),
    (refRast = true → reg.contains (.tmp "tmpmsk1" 0) = true) →
    checkFrom reg (rasterLoop refRast k) = true
  | 0, _, _ => rfl
  | Nat.succ k, reg, h => by
    rw [rasterLoop, checkFrom_append, rasterLoop_check refRast k reg h,
      rasterBody_check refRast k (regAfter reg (rasterLoop refRast k))
        (fun hr => contains_regAfter _ _ _ (h hr))]
    rfl

/-- The region set-up of r.mess registers each temporary region name before
the `g.region save=` call that creates it. -/
theorem messPrefix_check (refRast refRegion projRegion : Bool)
    (reg : List Name) :
    checkFrom reg (messMainPrefixTrace refRast refRegion projRegion)
      = true := by
  cases refRegion <;> cases refRast <;> cases projRegion <;>
    simp [messMainPrefixTrace, checkFrom, List.contains_cons]

/-- The output sections of r.mess register their temporaries before the
`r.series` calls that create them. -/
theorem messSuffix_check (flagN flagM flagK flagC flagI : Bool)
    (reg : List Name) :
    checkFrom reg (messSuffixTrace flagN flagM flagK flagC flagI)
      = true := by
  cases flagN <;> cases flagM <;> cases flagK <;> cases flagC <;>
    cases flagI <;>
    simp [messSuffixTrace, checkFrom, List.contains_cons]

/-- `recode_reference_rasters` keeps the invariant: the mask temporary is
registered before the rename creating it, and before the loop that renames
it back and forth. -/
theorem recodeRefRasters_check (refRast : Bool) (n : ℕ) (reg : List Name) :
    checkFrom reg (recodeReferenceRastersTrace refRast n) = true := by
  cases refRast with
  | false =>
    simpa [recodeReferenceRastersTrace] using
      rasterLoop_check false n reg (by simp)
  | true =>
    rw [recodeReferenceRastersTrace]
    rw [if_pos rfl, checkFrom_append]
    have h1 : checkFrom reg
        [.engine "r.mask" [.user "MASK"], .register (.tmp "tmpmsk1" 0),
         .engine "g.rename" [.tmp "tmpmsk1" 0]] = true := by
      simp [checkFrom, List.contains_cons]
    rw [h1]
    rw [rasterLoop_check true n _
      (fun _ => by simp [regAfter, checkFrom, List.contains_cons])]
    rfl

/-- `recode_reference_vector` keeps the invariant. -/
theorem recodeRefVector_check (n : ℕ) (reg : List Name) :
    checkFrom reg (recodeReferenceVectorTrace n) = true := by
  rw [recodeReferenceVectorTrace, checkFrom_append]
  have h1 : checkFrom reg
      [.register (.tmp "tmp7" 0), .engine "v.extract" [.tmp "tmp7" 0],
       .engine "v.db.addtable" []] = true := by
    simp [checkFrom, List.contains_cons]
  rw [h1, vectorLoop_check n]
  rfl

end TmpTracker

/-- Claim C4: in r.mess and in r.hydro.flatten without the keep flag, every
generated temporary layer name is appended to the process-wide cleanup list
before any external engine operation that creates the named artifact runs,
for every combination of the scripts' options/flags and any number of
environmental variables — so the cleanup list always covers every temporary
artifact that may exist, also on a partial-failure exit. -/
theorem tmp_names_registered_before_creation :
    (∀ breaklines minSize filled : Bool,
      TmpTracker.registeredBeforeCreation
        (TmpTracker.hydroTrace breaklines minSize filled) = true) ∧
    (∀ (refVect refRast refRegion projRegion flagN flagM flagK flagC
        flagI : Bool) (n : ℕ),
      TmpTracker.registeredBeforeCreation
        (TmpTracker.messTrace refVect refRast refRegion projRegion flagN
          flagM flagK flagC flagI n) = true) := by
  constructor
  · intro b m f
    cases b <;> cases m <;> cases f <;> rfl
  · intro refVect refRast refRegion projRegion flagN flagM flagK flagC
      flagI n
    cases refVect <;>
      simp [TmpTracker.messTrace, TmpTracker.registeredBeforeCreation,
        TmpTracker.checkFrom_append, TmpTracker.messPrefix_check,
        TmpTracker.messSuffix_check, TmpTracker.recodeRefRasters_check,
        TmpTracker.recodeRefVector_check]
